import Mathlib

/-!
# Verification of the log-system write-serialization and rotation subsystem

Shallow embedding of the TypeScript sources of `stormkid2009/log-system`:

* `src/types/index.ts` — data model (`LogLevel`, `ApiError`, `LogEntry`);
* `src/log-entry/index.ts` — `createLogEntry` (stack truncation);
* `src/file-manager/index.ts` — `ensureLogDirectory`, `rotateLogFile`,
  `safeAppendToLog` with its promise write queue;
* `src/logger/constants.ts` — `Logger.shouldLog`;
* `src/logger/index.ts` / `src/error-logger/index.ts` — `logError`.

JavaScript strings are modelled by `String`; the handful of string methods
the sources use (`split("\n")`, `slice`, `join("\n")`,
`replace(/[:.]/g, "-")`) are defined structurally over `String.data` so
that concrete runs reduce in the kernel.  File-system effects are modelled
by an explicit `FileSystem` state threaded through every operation, and
the observable actions of a run are recorded as an event trace, so the
ordering guarantees of the write queue become statements about traces.
Fallible I/O primitives consult an `IoEnv` of injected outcomes; a step
that the source wraps in `try`/`catch` propagates or swallows its error
exactly where the source does.
-/

namespace LogSystem

/-! ## JavaScript string primitives, structurally -/

/-- JavaScript `s.split(sep)` for a single-character separator, as JavaScript defines it:
`"".split(c) = [""]`, separators at the ends produce empty fragments. -/
def jsSplitCharAux (sep : Char) : List Char → List Char → List String
  | [], acc => [⟨acc.reverse⟩]
  | c :: cs, acc =>
    if c = sep then ⟨acc.reverse⟩ :: jsSplitCharAux sep cs []
    else jsSplitCharAux sep cs (c :: acc)

/-- JavaScript `s.split(sep)` restricted to a one-character separator string. -/
def jsSplitChar (sep : Char) (s : String) : List String :=
  jsSplitCharAux sep s.data []

/-- JavaScript `parts.join(sep)`. -/
def jsJoin (sep : String) : List String → String
  | [] => ""
  | [x] => x
  | x :: xs => x ++ sep ++ jsJoin sep xs

/-- JavaScript `s.replace(/[:.]/g, "-")`: every `:` and `.` character becomes `-`. -/
def jsReplaceColonDot (s : String) : String :=
  ⟨s.data.map (fun c => if c = ':' ∨ c = '.' then '-' else c)⟩

/-! ## Data model (`src/types/index.ts`) -/

/-- The `enum LogLevel` from `src/types/index.ts`. -/
inductive LogLevel where
  | ERROR
  | INFO
  | WARN
  | DEBUG
deriving DecidableEq, Repr

/-- The `interface ApiError` from `src/types/index.ts` (the optional
`requestData` sub-object is not consulted by any verified operation and is
carried opaquely as an optional field). -/
structure ApiError where
  path : String
  method : String
  statusCode : Nat
  errorName : String
  errorMessage : String
  stack : Option String := none
deriving DecidableEq, Repr

/-- The `interface LogEntry` from `src/types/index.ts`. -/
structure LogEntry where
  timestamp : String
  level : LogLevel
  message : String
  error : Option ApiError := none
deriving DecidableEq, Repr

/-- A JavaScript `Error` value as consumed by the logging entry points:
`name`, `message`, and optional `stack`. -/
structure JsError where
  name : String
  message : String
  stack : Option String := none
deriving DecidableEq, Repr

/-! ## `createLogEntry` (`src/log-entry/index.ts`)

```ts
return {
  timestamp: new Date().toISOString(),
  level,
  message,
  error: error && {
    ...error,
    stack: error.stack?.split("\n").slice(0, 5).join("\n"),
  },
};
```
`new Date().toISOString()` is passed in as the parameter `now`. -/

/-- JavaScript `error.stack?.split("\n").slice(0, 5).join("\n")`. -/
def truncateStack : Option String → Option String
  | none => none
  | some s => some (jsJoin "\n" ((jsSplitChar '\n' s).take 5))

/-- Function `createLogEntry` from `src/log-entry/index.ts`. -/
def createLogEntry (now : String) (level : LogLevel) (message : String)
    (error : Option ApiError := none) : LogEntry :=
  { timestamp := now
    level := level
    message := message
    error := error.map (fun e => { e with stack := truncateStack e.stack }) }

/-! ## `logError` (`src/logger/index.ts`, `src/error-logger/index.ts`)

Both files build the identical entry:
```ts
const logEntry = createLogEntry(LogLevel.ERROR, message, {
  path: "unknown",
  method: "unknown",
  statusCode: 500,
  errorName: error.name,
  errorMessage: error.message,
  stack: error.stack,
});
```
-/

/-- The `LogEntry` constructed by `logError(message, error)`. -/
def logErrorEntry (now : String) (message : String) (error : JsError) : LogEntry :=
  createLogEntry now LogLevel.ERROR message (some
    { path := "unknown"
      method := "unknown"
      statusCode := 500
      errorName := error.name
      errorMessage := error.message
      stack := error.stack })

/-! ## `Logger.shouldLog` (`src/logger/constants.ts`)

```ts
const levelOrder = {
  [LogLevel.DEBUG]: 0,
  [LogLevel.INFO]: 1,
  [LogLevel.WARN]: 2,
  [LogLevel.ERROR]: 3
};
return levelOrder[level] >= levelOrder[this.config.minLevel];
```
-/

/-- The `levelOrder` lookup table of `Logger.shouldLog`. -/
def levelOrder : LogLevel → Nat
  | .DEBUG => 0
  | .INFO => 1
  | .WARN => 2
  | .ERROR => 3

/-- Method `Logger.shouldLog(level)` with the configured `minLevel` made explicit. -/
def shouldLog (minLevel level : LogLevel) : Bool :=
  levelOrder level ≥ levelOrder minLevel

/-! ## File-system model for `src/file-manager/index.ts`

The file manager receives a file path string and decomposes it with
`path.dirname`, `path.extname` and `path.basename(p, ext)`.  The embedding
carries the decomposition explicitly: a `LogPath` holds the directory, the
base name and the extension, and renders to the flat path string
`dir ++ "/" ++ base ++ ext` that keys the file table (`path.join dir name`
is `dir ++ "/" ++ name`).  A `FileSystem` is the set of existing
directories plus a table from path strings to file contents; `stat(..).size`
is the content length.  Fallible primitives (`fs.mkdir`, `fs.stat`,
`fs.rename`, `fs.appendFile`) consult an `IoEnv` of injected outcomes so
that every failure combination of a run can be examined. -/

/-- A log-file path, pre-decomposed the way `rotateLogFile` decomposes it
(`path.dirname` / `path.basename(p, ext)` / `path.extname`). -/
structure LogPath where
  dir : String
  base : String
  ext : String
deriving DecidableEq, Repr

/-- Node `path.join(dir, name)`. -/
def joinPath (dir name : String) : String := dir ++ "/" ++ name

/-- The flat path string a `LogPath` stands for. -/
def LogPath.render (p : LogPath) : String := joinPath p.dir (p.base ++ p.ext)

/-- Explicit file-system state: existing directories and a table from path
strings to file contents. -/
structure FileSystem where
  dirs : List String
  files : List (String × String)
deriving DecidableEq, Repr

/-- Content of the file at `p`, when it exists. -/
def lookupFile (fs : FileSystem) (p : String) : Option String :=
  (fs.files.find? (fun kv => kv.1 == p)).map Prod.snd

/-- Overwrite (or create) the file at `p` with `content`. -/
def setFile (fs : FileSystem) (p : String) (content : String) : FileSystem :=
  { fs with files := (p, content) :: fs.files.filter (fun kv => !(kv.1 == p)) }

/-- Delete the file at `p` when present. -/
def removeFile (fs : FileSystem) (p : String) : FileSystem :=
  { fs with files := fs.files.filter (fun kv => !(kv.1 == p)) }

/-- Node `fs.rename(src, dst)`: move the content at the old path to the new one. -/
def renameFile (fs : FileSystem) (oldP newP : String) : FileSystem :=
  match lookupFile fs oldP with
  | none => fs
  | some c => setFile (removeFile fs oldP) newP c

/-- Injected outcomes for the fallible file-system primitives of one call:
`true` means the primitive succeeds. -/
structure IoEnv where
  mkdirOk : Bool := true
  statOk : Bool := true
  renameOk : Bool := true
  appendOk : Bool := true
deriving DecidableEq, Repr

/-- The environment in which every primitive succeeds. -/
def IoEnv.allOk : IoEnv := {}

/-- Observable actions of the file manager, in the order they are
performed.  `rotationCheck` is the `fs.stat` that opens `rotateLogFile`;
`errorLogged` is a `console.error` call. -/
inductive StepEvent where
  | ensureDir (dir : String)
  | rotationCheck (path : String)
  | renameStep (oldP newP : String)
  | appendStep (path bytes : String)
  | errorLogged (msg : String)
deriving DecidableEq, Repr

/-! ## `ensureLogDirectory` (`src/file-manager/index.ts`, lines 54–61)

```ts
try { await fs.mkdir(logDir, { recursive: true }); }
catch (error) { console.error("Failed to create logs directory:", error); throw error; }
```
The result triple is (new state, thrown error if any, events). -/

/-- Function `ensureLogDirectory(logDir)`: recursive `mkdir`; on failure the error is
logged and re-thrown. -/
def ensureLogDirectory (env : IoEnv) (fs : FileSystem) (logDir : String) :
    FileSystem × Option String × List StepEvent :=
  if env.mkdirOk then
    ({ fs with dirs := if fs.dirs.contains logDir then fs.dirs else logDir :: fs.dirs },
     none, [.ensureDir logDir])
  else
    (fs, some "mkdir failed", [.errorLogged "Failed to create logs directory:"])

/-! ## `rotateLogFile` (`src/file-manager/index.ts`, lines 74–94)

```ts
const now = new Date();
try {
  const stats = await fs.stat(logFilePath).catch(() => null);
  if (stats && stats.size >= maxSize) {
    const dir = path.dirname(logFilePath);
    const ext = path.extname(logFilePath);
    const base = path.basename(logFilePath, ext);
    const timestamp = now.toISOString().replace(/[:.]/g, "-");
    const newPath = path.join(dir, `${base}-${timestamp}${ext}`);
    await fs.rename(logFilePath, newPath);
  }
} catch (error) { console.error("Failed to create logs directory:", error); }
```
`now.toISOString()` is the parameter `now`.  The function body contains no
`return` statement, so the async function settles with `undefined`; the
middle component of the result models that settled value as an
`Option String` — constantly `none`. -/

/-- Node `fs.stat(p).catch(() => null)`, projected to `.size`: any stat failure
is collapsed to `null` (missing file). -/
def statSize (env : IoEnv) (fs : FileSystem) (p : String) : Option Nat :=
  if env.statOk then (lookupFile fs p).map String.length else none

/-- The rename target `path.join(dir, base + "-" + timestamp + ext)` built
by `rotateLogFile` for rotation instant `iso`. -/
def rotatedPath (p : LogPath) (iso : String) : String :=
  joinPath p.dir (p.base ++ "-" ++ jsReplaceColonDot iso ++ p.ext)

/-- Function `rotateLogFile(logFilePath, maxSize)`.  Result: (new state, value the
returned promise settles with, events). -/
def rotateLogFile (env : IoEnv) (now : String) (fs : FileSystem)
    (p : LogPath) (maxSize : Nat) : FileSystem × Option String × List StepEvent :=
  match statSize env fs p.render with
  | none => (fs, none, [.rotationCheck p.render])
  | some size =>
    if size ≥ maxSize then
      if env.renameOk then
        (renameFile fs p.render (rotatedPath p now), none,
         [.rotationCheck p.render, .renameStep p.render (rotatedPath p now)])
      else
        (fs, none,
         [.rotationCheck p.render, .errorLogged "Failed to create logs directory:"])
    else (fs, none, [.rotationCheck p.render])

/-- Node `fs.appendFile(p, data, "utf8")`: append-mode write, creating the file
when missing. -/
def appendFileOp (env : IoEnv) (fs : FileSystem) (p : String) (data : String) :
    FileSystem × Option String × List StepEvent :=
  if env.appendOk then
    (setFile fs p ((lookupFile fs p).getD "" ++ data), none, [.appendStep p data])
  else (fs, some "append failed", [])

/-! ## `safeAppendToLog` (`src/file-manager/index.ts`, lines 108–131)

```ts
writeQueue = writeQueue.then(async () => {
  try {
    const logDir = path.dirname(logFilePath);
    await ensureLogDirectory(logDir);
    // Always check file size before every write
    await rotateLogFile(logFilePath, maxSize);
    await fs.appendFile(logFilePath, data + "\n", "utf8");
    // Check again after writing in case the file now exceeds the limit
    await rotateLogFile(logFilePath, maxSize);
  } catch (error) { console.error("Failed to write to log file:", error); }
});
return writeQueue;
```
The module also owns `let lastRotationCheck = Date.now()` (lines 29–42,
with setter `setlastRotationCheck`) and imports
`DEFAULT_CONFIG.ROTATION_CHECK_INTERVAL`; the body above reads neither.
To make that observable, the body receives the ambient clock and module
state as a `TimeEnv` argument. -/

/-- Ambient clock and rotation-check module state visible to an append:
`Date.now()` at submission, the module's `lastRotationCheck`, and the
configured `ROTATION_CHECK_INTERVAL`. -/
structure TimeEnv where
  nowMs : Nat
  lastRotationCheck : Nat
  rotationCheckInterval : Nat
deriving DecidableEq, Repr

/-- Outcome of one queued append body: the file-system state it leaves
behind, the settlement of its promise (`none` = resolved, `some msg` =
rejected with `msg`), and its event trace. -/
structure BodyResult where
  fs : FileSystem
  rejection : Option String
  events : List StepEvent
deriving DecidableEq, Repr

/-- The `try` block of the queued body: directory ensure, rotation
pre-check, append of `data + "\n"`, rotation post-check; the middle result
component is the error the block throws, if any. -/
def safeAppendTry (env : IoEnv) (now : String) (fs : FileSystem)
    (data : String) (p : LogPath) (maxSize : Nat) :
    FileSystem × Option String × List StepEvent :=
  let r1 := ensureLogDirectory env fs p.dir
  match r1.2.1 with
  | some e => (r1.1, some e, r1.2.2)
  | none =>
    let r2 := rotateLogFile env now r1.1 p maxSize
    let r3 := appendFileOp env r2.1 p.render (data ++ "\n")
    match r3.2.1 with
    | some e => (r3.1, some e, r1.2.2 ++ r2.2.2 ++ r3.2.2)
    | none =>
      let r4 := rotateLogFile env now r3.1 p maxSize
      (r4.1, none, r1.2.2 ++ r2.2.2 ++ r3.2.2 ++ r4.2.2)

/-- One queued body of `safeAppendToLog`: the `try` block wrapped in the
`catch` that logs the failure and swallows it.  The source body never reads
`time`. -/
def safeAppendBody (_time : TimeEnv) (env : IoEnv) (now : String)
    (fs : FileSystem) (data : String) (p : LogPath) (maxSize : Nat) : BodyResult :=
  let r := safeAppendTry env now fs data p maxSize
  match r.2.1 with
  | some _ =>
    { fs := r.1, rejection := none
      events := r.2.2 ++ [.errorLogged "Failed to write to log file:"] }
  | none => { fs := r.1, rejection := none, events := r.2.2 }

/-! ## The write queue

Each call `safeAppendToLog(data, ...)` chains its body onto the module's
single `writeQueue` promise with `.then`, so body `k` starts only after
body `k - 1` has settled, and `safeAppendToLog` returns the new chain
head.  `runQueue` is that semantics: the pending calls, in submission
order, each run to completion; the trace brackets body `k`'s step events
between `start k` and `finish k` (carrying body `k`'s settlement). -/

/-- One pending `safeAppendToLog` call: its arguments, its injected I/O
outcomes, and the ambient clock state at its turn. -/
structure Job where
  time : TimeEnv
  env : IoEnv
  nowIso : String
  data : String
  path : LogPath
  maxSize : Nat
deriving DecidableEq, Repr

/-- Trace events of a queue run, tagged with the submission index of the
operation they belong to. -/
inductive QEvent where
  | start (op : Nat)
  | step (op : Nat) (e : StepEvent)
  | finish (op : Nat) (rejection : Option String)
deriving DecidableEq, Repr

/-- The submission index an event belongs to. -/
def QEvent.tag : QEvent → Nat
  | .start k => k
  | .step k _ => k
  | .finish k _ => k

/-- Run the queued bodies in submission order, numbering them from `k`. -/
def runQueue (fs : FileSystem) (k : Nat) : List Job → FileSystem × List QEvent
  | [] => (fs, [])
  | j :: rest =>
    let r := safeAppendBody j.time j.env j.nowIso fs j.data j.path j.maxSize
    let rst := runQueue r.fs (k + 1) rest
    (rst.1,
     (QEvent.start k :: r.events.map (QEvent.step k) ++ [QEvent.finish k r.rejection])
       ++ rst.2)

/-! ## Text formatter — modelled from the spec

The formatter factory (`createFormatter` of the `custom-format` /
`formatters` module imported by `src/logger/index.ts` and
`src/logger/constants.ts`) is not among the sources; only its callers and
the test suite are.  The text variant is therefore modelled from the spec
(§4.1) and the test expectation `"WARN: Test warn log"`. -/

/-- Modelled from the spec: the display name of a log level, as used by the
text formatter (the enum values are their own names). -/
def levelName : LogLevel → String
  | .ERROR => "ERROR"
  | .INFO => "INFO"
  | .WARN => "WARN"
  | .DEBUG => "DEBUG"

/-- Modelled from the spec: the rendered error block the text formatter
appends when an error is present — `path, method, statusCode,
errorName: errorMessage`, then the (already truncated) stack. -/
def renderErrorBlock (e : ApiError) : String :=
  "\n" ++ e.path ++ ", " ++ e.method ++ ", " ++ toString e.statusCode ++ ", "
    ++ e.errorName ++ ": " ++ e.errorMessage
    ++ (match e.stack with
        | some st => "\n" ++ st
        | none => "")

/-- Modelled from the spec: the text formatter produced by the formatter
factory `createFormatter("text", options)` (module `custom-format`, absent
from the sources).  Per spec §4.1 it renders `"<LEVEL>: <message>"` for
plain entries and appends the rendered error block when an error is
present; a thrown exception would be an `Except.error`, and the formatter
never throws. -/
def formatTextEntry (entry : LogEntry) : Except String String :=
  .ok (match entry.error with
       | none => levelName entry.level ++ ": " ++ entry.message
       | some a => levelName entry.level ++ ": " ++ entry.message ++ renderErrorBlock a)

/-! ## Theorems -/

/-- C7: for every level and every configured minimum level,
`shouldLog(level)` returns `true` iff the numeric rank of `level` is at
least the rank of `minLevel`, for any numeric ranking realizing the order
DEBUG < INFO < WARN < ERROR. -/
theorem shouldLog_iff_rank_le (r : LogLevel → Nat)
    (h1 : r .DEBUG < r .INFO) (h2 : r .INFO < r .WARN) (h3 : r .WARN < r .ERROR)
    (minLevel level : LogLevel) :
    shouldLog minLevel level = true ↔ r minLevel ≤ r level := by
  cases minLevel <;> cases level <;> simp [shouldLog, levelOrder] <;> omega

/-- Witness for C7: the ranking that multiplies the code's table by ten
realizes the order, and `shouldLog(INFO ≤ WARN)` holds. -/
theorem shouldLog_iff_rank_le_witness :
    shouldLog .INFO .WARN = true ↔ 10 ≤ 20 :=
  shouldLog_iff_rank_le (fun l => levelOrder l * 10)
    (by decide) (by decide) (by decide) .INFO .WARN

/-- C8: the `LogEntry` produced by `createLogEntry` carries a stack equal
to the first `min(n, 5)` lines of the input stack joined by newlines, and
an absent stack stays absent. -/
theorem createLogEntry_stack_truncation (now msg : String) (level : LogLevel)
    (e : ApiError) :
    (∀ st, e.stack = some st →
      (createLogEntry now level msg (some e)).error.map (fun a => a.stack) =
        some (some (jsJoin "\n" ((jsSplitChar '\n' st).take
          (min (jsSplitChar '\n' st).length 5)))))
    ∧ (e.stack = none →
      (createLogEntry now level msg (some e)).error.map (fun a => a.stack) =
        some none) := by
  constructor
  · intro st hst
    simp [createLogEntry, truncateStack, hst]
    congr 1
    rw [List.take_eq_take]
    omega
  · intro h
    simp [createLogEntry, truncateStack, h]

def stack10 : String := "l1\nl2\nl3\nl4\nl5\nl6\nl7\nl8\nl9\nl10"

def apiErr10 : ApiError :=
  { path := "/a", method := "GET", statusCode := 500, errorName := "E",
    errorMessage := "m", stack := some stack10 }

/-- Witness for C8: a 10-line stack yields exactly its first 5 lines. -/
theorem createLogEntry_stack_truncation_witness :
    (createLogEntry "t" .ERROR "boom" (some apiErr10)).error.map (fun a => a.stack) =
      some (some "l1\nl2\nl3\nl4\nl5") :=
  ((createLogEntry_stack_truncation "t" "boom" .ERROR apiErr10).1 stack10 rfl).trans
    (by decide)

/-- C10: the entry constructed by `logError(message, error)` has level
ERROR and embeds an `ApiError` with path `"unknown"`, method `"unknown"`
and status code 500, for all arguments. -/
theorem logErrorEntry_fixed_context (now msg : String) (err : JsError) :
    (logErrorEntry now msg err).level = LogLevel.ERROR ∧
    ∃ a, (logErrorEntry now msg err).error = some a ∧
      a.path = "unknown" ∧ a.method = "unknown" ∧ a.statusCode = 500 :=
  ⟨rfl, _, rfl, rfl, rfl, rfl⟩

/-- C9: the text formatter renders a plain entry as `"<LEVEL>: <message>"`,
appends the rendered error block when an error is present, and throws for
no well-formed entry. -/
theorem formatTextEntry_renders (entry : LogEntry) :
    (entry.error = none →
      formatTextEntry entry = .ok (levelName entry.level ++ ": " ++ entry.message))
    ∧ (∀ a, entry.error = some a →
      formatTextEntry entry =
        .ok (levelName entry.level ++ ": " ++ entry.message ++ renderErrorBlock a))
    ∧ ∃ s, formatTextEntry entry = .ok s := by
  refine ⟨fun h => ?_, fun a h => ?_, ?_⟩
  · simp [formatTextEntry, h]
  · simp [formatTextEntry, h]
  · exact ⟨_, rfl⟩

def warnEntry : LogEntry :=
  { timestamp := "t", level := .WARN, message := "Test warn log" }

/-- Witness for C9: the plain warn entry of the test suite renders to
`"WARN: Test warn log"`. -/
theorem formatTextEntry_renders_witness :
    formatTextEntry warnEntry = .ok ("WARN" ++ ": " ++ "Test warn log") :=
  (formatTextEntry_renders warnEntry).1 rfl

/-! ## Helper notions for the file-manager theorems -/

/-- Selector of the claimed per-append core steps — directory ensure,
rotation check, append — leaving out the rename a rotation check may
trigger and diagnostic `console.error` output. -/
def isCoreStep : StepEvent → Bool
  | .ensureDir _ => true
  | .rotationCheck _ => true
  | .appendStep _ _ => true
  | .renameStep _ _ => false
  | .errorLogged _ => false

/-- The core steps of an event trace, in order. -/
def coreSteps (evts : List StepEvent) : List StepEvent := evts.filter isCoreStep

theorem coreSteps_append (l1 l2 : List StepEvent) :
    coreSteps (l1 ++ l2) = coreSteps l1 ++ coreSteps l2 :=
  List.filter_append l1 l2

/-- Whatever `rotateLogFile` does, its one core step is the rotation check
of the target path. -/
theorem coreSteps_rotateLogFile (env : IoEnv) (now : String) (fs : FileSystem)
    (p : LogPath) (maxSize : Nat) :
    coreSteps (rotateLogFile env now fs p maxSize).2.2 = [.rotationCheck p.render] := by
  unfold rotateLogFile
  rcases h : statSize env fs p.render with _ | n <;> simp only [h]
  · simp [coreSteps, isCoreStep]
  · split
    · split <;> simp [coreSteps, isCoreStep]
    · simp [coreSteps, isCoreStep]

/-- Under successful directory creation and append, the body's core steps
are exactly the four claimed ones, in order. -/
theorem coreSteps_safeAppendBody (time : TimeEnv) (env : IoEnv) (now : String)
    (fs : FileSystem) (data : String) (p : LogPath) (maxSize : Nat)
    (hm : env.mkdirOk = true) (ha : env.appendOk = true) :
    coreSteps (safeAppendBody time env now fs data p maxSize).events =
      [.ensureDir p.dir, .rotationCheck p.render,
       .appendStep p.render (data ++ "\n"), .rotationCheck p.render] := by
  unfold safeAppendBody safeAppendTry
  simp only [ensureLogDirectory, hm, if_true, appendFileOp, ha]
  have hrot : ∀ fs2, List.filter isCoreStep (rotateLogFile env now fs2 p maxSize).2.2 =
      [StepEvent.rotationCheck p.render] :=
    fun fs2 => coreSteps_rotateLogFile env now fs2 p maxSize
  simp [coreSteps, hrot, isCoreStep]

/-- Concrete log path used by witnesses. -/
def path0 : LogPath := { dir := "d", base := "f", ext := ".log" }

/-- Empty file system used by witnesses. -/
def fsEmpty : FileSystem := { dirs := [], files := [] }

/-- A clock state whose elapsed time is far beyond the interval. -/
def tEnvLate : TimeEnv :=
  { nowMs := 1000000, lastRotationCheck := 0, rotationCheckInterval := 300000 }

/-- C3: every queued append body performs, in order: directory ensure,
rotation check, append of the payload plus exactly one newline in append
mode, and a second rotation check; the body is independent of the clock
and rotation-check interval, and the append step concatenates onto the
previous content. -/
theorem safeAppendBody_core_sequence (time : TimeEnv) (env : IoEnv) (now : String)
    (fs : FileSystem) (data : String) (p : LogPath) (maxSize : Nat)
    (hm : env.mkdirOk = true) (ha : env.appendOk = true) :
    coreSteps (safeAppendBody time env now fs data p maxSize).events =
      [.ensureDir p.dir, .rotationCheck p.render,
       .appendStep p.render (data ++ "\n"), .rotationCheck p.render]
    ∧ (∀ time2 : TimeEnv, safeAppendBody time env now fs data p maxSize =
        safeAppendBody time2 env now fs data p maxSize)
    ∧ (∀ fs2 path2 d2, lookupFile (appendFileOp env fs2 path2 d2).1 path2 =
        some ((lookupFile fs2 path2).getD "" ++ d2)) := by
  refine ⟨coreSteps_safeAppendBody time env now fs data p maxSize hm ha,
    fun time2 => rfl, fun fs2 path2 d2 => ?_⟩
  simp [appendFileOp, ha, lookupFile, setFile]

/-- Witness for C3: the four core steps on a concrete run. -/
theorem safeAppendBody_core_sequence_witness :
    coreSteps (safeAppendBody tEnvLate IoEnv.allOk "T" fsEmpty "hello" path0 100).events =
      [.ensureDir "d", .rotationCheck "d/f.log", .appendStep "d/f.log" "hello\n",
       .rotationCheck "d/f.log"] :=
  (safeAppendBody_core_sequence tEnvLate IoEnv.allOk "T" fsEmpty "hello" path0 100
    rfl rfl).1

/-- C5 is refuted by the code: with zero elapsed time — not exceeding the
configured 300000 ms interval — the append still performs two rotation
checks, where the claim requires none. -/
theorem rotation_check_not_gated_counterexample :
    ¬ ((100 : Nat) - 100 > 300000) ∧
    (safeAppendBody
        { nowMs := 100, lastRotationCheck := 100, rotationCheckInterval := 300000 }
        IoEnv.allOk "T" fsEmpty "a" path0 1000).events.count
      (StepEvent.rotationCheck "d/f.log") = 2 := by
  decide

/-- C5 (amended): `safeAppendToLog` never consults the clock, the module's
`lastRotationCheck`, or the rotation-check interval — the body is
identical under any two clock states — and (when directory creation and
append succeed) every append performs the rotation check twice regardless
of elapsed time. -/
theorem rotation_check_every_append (t1 t2 : TimeEnv) (env : IoEnv) (now : String)
    (fs : FileSystem) (data : String) (p : LogPath) (maxSize : Nat)
    (hm : env.mkdirOk = true) (ha : env.appendOk = true) :
    safeAppendBody t1 env now fs data p maxSize =
      safeAppendBody t2 env now fs data p maxSize
    ∧ (safeAppendBody t1 env now fs data p maxSize).events.count
        (StepEvent.rotationCheck p.render) = 2 := by
  refine ⟨rfl, ?_⟩
  have h2 : (coreSteps (safeAppendBody t1 env now fs data p maxSize).events).count
      (StepEvent.rotationCheck p.render) = 2 := by
    rw [coreSteps_safeAppendBody t1 env now fs data p maxSize hm ha]
    simp [List.count_cons]
  rw [coreSteps, List.count_filter rfl] at h2
  exact h2

/-- Witness for C5 (amended): a concrete run with a large elapsed time
also performs exactly two checks, and is equal to the run at zero elapsed
time. -/
theorem rotation_check_every_append_witness :
    (safeAppendBody tEnvLate IoEnv.allOk "T" fsEmpty "a" path0 1000).events.count
      (StepEvent.rotationCheck "d/f.log") = 2 :=
  (rotation_check_every_append tEnvLate
    { nowMs := 0, lastRotationCheck := 0, rotationCheckInterval := 300000 }
    IoEnv.allOk "T" fsEmpty "a" path0 1000 rfl rfl).2

/-- A concrete file system holding a ten-byte log file. -/
def fsBig : FileSystem := { dirs := ["d"], files := [("d/f.log", "0123456789")] }

/-- A concrete ISO-8601 rotation instant. -/
def iso1 : String := "2024-01-02T03:04:05.678Z"

/-- C4 is refuted on its return-value clause: at a file of size at least
`maxSize` the rotation does happen (the file system changes and the rename
step runs), but `rotateLogFile` has no return statement, so its promise
settles with `undefined` — not the new path. -/
theorem rotateLogFile_returns_nothing_counterexample :
    (rotateLogFile IoEnv.allOk iso1 fsBig path0 10).1 ≠ fsBig
    ∧ StepEvent.renameStep "d/f.log" "d/f-2024-01-02T03-04-05-678Z.log"
        ∈ (rotateLogFile IoEnv.allOk iso1 fsBig path0 10).2.2
    ∧ (rotateLogFile IoEnv.allOk iso1 fsBig path0 10).2.1 = none
    ∧ (rotateLogFile IoEnv.allOk iso1 fsBig path0 10).2.1 ≠
        some "d/f-2024-01-02T03-04-05-678Z.log" := by
  decide

/-- C4 (amended): `rotateLogFile` renames the log file iff the file exists
and its size is at least `maxSize`; when the file does not exist it
performs no rotation and reports no error; the rename target is the same
directory with the base name suffixed by the timestamp; and the operation
returns no value (its promise settles with `undefined`) whether or not it
rotates. -/
theorem rotateLogFile_behavior (env : IoEnv) (now : String) (fs : FileSystem)
    (p : LogPath) (maxSize : Nat)
    (hs : env.statOk = true) (hr : env.renameOk = true) :
    (∀ content, lookupFile fs p.render = some content → content.length ≥ maxSize →
      (rotateLogFile env now fs p maxSize).1 =
        renameFile fs p.render (rotatedPath p now)
      ∧ StepEvent.renameStep p.render (rotatedPath p now)
          ∈ (rotateLogFile env now fs p maxSize).2.2)
    ∧ (lookupFile fs p.render = none →
      (rotateLogFile env now fs p maxSize).1 = fs
      ∧ (rotateLogFile env now fs p maxSize).2.2 = [.rotationCheck p.render])
    ∧ (∀ content, lookupFile fs p.render = some content → content.length < maxSize →
      (rotateLogFile env now fs p maxSize).1 = fs
      ∧ (rotateLogFile env now fs p maxSize).2.2 = [.rotationCheck p.render])
    ∧ (rotateLogFile env now fs p maxSize).2.1 = none := by
  refine ⟨fun content hc hge => ?_, fun hc => ?_, fun content hc hlt => ?_, ?_⟩
  · simp [rotateLogFile, statSize, hs, hc, hge, hr]
  · simp [rotateLogFile, statSize, hs, hc]
  · simp [rotateLogFile, statSize, hs, hc, Nat.not_le_of_lt hlt]
  · unfold rotateLogFile
    rcases h : statSize env fs p.render with _ | n
    · rfl
    · by_cases hge : n ≥ maxSize <;> simp [hge, hr]

/-- Witness for C4 (amended): the concrete ten-byte file at threshold ten
is renamed to the timestamped path and the settled value is `undefined`. -/
theorem rotateLogFile_behavior_witness :
    ((rotateLogFile IoEnv.allOk iso1 fsBig path0 10).1 =
        renameFile fsBig "d/f.log" (rotatedPath path0 iso1)
      ∧ StepEvent.renameStep "d/f.log" (rotatedPath path0 iso1)
          ∈ (rotateLogFile IoEnv.allOk iso1 fsBig path0 10).2.2)
    ∧ (rotateLogFile IoEnv.allOk iso1 fsBig path0 10).2.1 = none :=
  ⟨(rotateLogFile_behavior IoEnv.allOk iso1 fsBig path0 10 rfl rfl).1
      "0123456789" rfl (by decide),
    (rotateLogFile_behavior IoEnv.allOk iso1 fsBig path0 10 rfl rfl).2.2.2⟩

/-- The element at a position below the length of a mapped list is the
image of the element there, whatever the defaults. -/
theorem getD_map_of_lt {α β : Type} (f : α → β) (l : List α) (i : Nat)
    (d : α) (d2 : β) (h : i < l.length) :
    (l.map f).getD i d2 = f (l.getD i d) := by
  induction l generalizing i with
  | nil => simp at h
  | cons a t ih =>
    cases i with
    | zero => rfl
    | succ n => exact ih n (by simpa using h)

/-- C6: the rotated file's name is the original base name, a hyphen, and
the rotation instant's ISO-8601 timestamp with every `:` and `.` replaced
by `-`, followed by the original extension, in the same directory; and the
original path is the one every body's append step writes to. -/
theorem rotated_file_naming (p : LogPath) (iso : String) :
    (∃ name, rotatedPath p iso = joinPath p.dir name ∧
      name = p.base ++ "-" ++ jsReplaceColonDot iso ++ p.ext)
    ∧ (jsReplaceColonDot iso).data.length = iso.data.length
    ∧ (∀ i, i < iso.data.length →
        (jsReplaceColonDot iso).data.getD i ' ' =
          if iso.data.getD i ' ' = ':' ∨ iso.data.getD i ' ' = '.' then '-'
          else iso.data.getD i ' ')
    ∧ (∀ time env now fs data maxSize path2 bytes,
        StepEvent.appendStep path2 bytes
            ∈ (safeAppendBody time env now fs data p maxSize).events →
        path2 = p.render ∧ bytes = data ++ "\n") := by
  refine ⟨⟨_, rfl, rfl⟩, by simp [jsReplaceColonDot], fun i hi => ?_,
    fun time env now fs data maxSize path2 bytes hmem => ?_⟩
  · exact getD_map_of_lt _ iso.data i ' ' ' ' hi
  · have hrot : ∀ fs2, StepEvent.appendStep path2 bytes
        ∉ (rotateLogFile env now fs2 p maxSize).2.2 := by
      intro fs2
      unfold rotateLogFile
      rcases hst : statSize env fs2 p.render with _ | n <;> simp only [hst]
      · simp
      · split
        · split <;> simp
        · simp
    unfold safeAppendBody safeAppendTry ensureLogDirectory appendFileOp at hmem
    cases hm : env.mkdirOk <;> cases ha : env.appendOk <;>
      simp [hm, ha, hrot] at hmem
    all_goals exact ⟨hmem.1, hmem.2⟩

/-- Witness for C6: on the concrete ISO instant the character class check
fires (the `:` at index 13 becomes `-`), and a concrete body's append step
targets the original path. -/
theorem rotated_file_naming_witness :
    (jsReplaceColonDot iso1).data.getD 13 ' ' = '-'
    ∧ ("d/f.log" = path0.render ∧ "a\n" = "a" ++ "\n") :=
  ⟨((rotated_file_naming path0 iso1).2.2.1 13 (by decide)).trans (by decide),
    (rotated_file_naming path0 iso1).2.2.2 tEnvLate IoEnv.allOk "T" fsEmpty "a" 100
      "d/f.log" "a\n" (by decide)⟩

/-- Every queued body resolves: the catch clause swallows any step
failure, so the body's promise settles with `undefined`. -/
theorem safeAppendBody_resolves (time : TimeEnv) (env : IoEnv) (now : String)
    (fs : FileSystem) (data : String) (p : LogPath) (maxSize : Nat) :
    (safeAppendBody time env now fs data p maxSize).rejection = none := by
  cases h : (safeAppendTry env now fs data p maxSize).2.1 with
  | none => simp [safeAppendBody, h]
  | some e => simp [safeAppendBody, h]

/-- Every event of the trace block emitted for operation `k` is tagged `k`. -/
theorem mem_block_tag (k : Nat) (evts : List StepEvent) (rej : Option String)
    (e : QEvent)
    (he : e ∈ QEvent.start k :: evts.map (QEvent.step k) ++ [QEvent.finish k rej]) :
    e.tag = k := by
  rcases List.mem_cons.mp he with rfl | h2
  · rfl
  · rcases List.mem_append.mp h2 with h3 | h3
    · rcases List.mem_map.mp h3 with ⟨s, _, rfl⟩
      rfl
    · rcases List.mem_singleton.mp h3 with rfl
      rfl

/-- Tags in a queue run numbered from `k` are at least `k`. -/
theorem runQueue_tag_ge (jobs : List Job) : ∀ (fs : FileSystem) (k : Nat),
    ∀ e ∈ (runQueue fs k jobs).2, k ≤ e.tag := by
  induction jobs with
  | nil =>
    intro fs k e he
    simp [runQueue] at he
  | cons j rest ih =>
    intro fs k e he
    simp only [runQueue] at he
    rcases List.mem_append.mp he with h | h
    · exact (mem_block_tag k _ _ e h).ge
    · exact Nat.le_of_succ_le (ih _ (k + 1) e h)

/-- Gluing a constant block in front of a sorted tail that dominates it. -/
theorem sorted_le_append (c : Nat) (l1 l2 : List Nat)
    (h1 : ∀ x ∈ l1, x = c) (h2 : l2.Sorted (· ≤ ·)) (h3 : ∀ x ∈ l2, c ≤ x) :
    (l1 ++ l2).Sorted (· ≤ ·) := by
  rw [List.Sorted, List.pairwise_append]
  refine ⟨List.pairwise_of_forall_mem_list (fun a ha b hb => ?_), h2,
    fun a ha b hb => ?_⟩
  · rw [h1 a ha, h1 b hb]
  · rw [h1 a ha]
    exact h3 b hb

/-- The tags along any queue-run trace are monotone. -/
theorem runQueue_tags_sorted (jobs : List Job) : ∀ (fs : FileSystem) (k : Nat),
    ((runQueue fs k jobs).2.map QEvent.tag).Sorted (· ≤ ·) := by
  induction jobs with
  | nil =>
    intro fs k
    simp [runQueue]
  | cons j rest ih =>
    intro fs k
    simp only [runQueue]
    rw [List.map_append]
    apply sorted_le_append k
    · intro x hx
      rcases List.mem_map.mp hx with ⟨e, he, rfl⟩
      exact mem_block_tag k _ _ e he
    · exact ih _ (k + 1)
    · intro x hx
      rcases List.mem_map.mp hx with ⟨e, he, rfl⟩
      exact Nat.le_of_succ_le (runQueue_tag_ge rest _ (k + 1) e he)

/-- Operation `i` of a queue run numbered from `k` both starts and
finishes — resolved — in the trace. -/
theorem runQueue_runs_all (jobs : List Job) : ∀ (fs : FileSystem) (k i : Nat),
    i < jobs.length →
    QEvent.start (k + i) ∈ (runQueue fs k jobs).2
    ∧ QEvent.finish (k + i) none ∈ (runQueue fs k jobs).2 := by
  induction jobs with
  | nil =>
    intro fs k i h
    simp at h
  | cons j rest ih =>
    intro fs k i h
    simp only [runQueue]
    cases i with
    | zero =>
      constructor
      · exact List.mem_append_left _ (List.mem_cons_self _ _)
      · apply List.mem_append_left
        apply List.mem_cons_of_mem
        apply List.mem_append_right
        rw [safeAppendBody_resolves j.time j.env j.nowIso fs j.data j.path j.maxSize]
        exact List.mem_singleton.mpr rfl
    | succ n =>
      have h2 : n < rest.length := by simpa using h
      have hih := ih (safeAppendBody j.time j.env j.nowIso fs j.data j.path
        j.maxSize).fs (k + 1) n h2
      have heq : k + (n + 1) = (k + 1) + n := by omega
      rw [heq]
      exact ⟨List.mem_append_right _ hih.1, List.mem_append_right _ hih.2⟩

/-- C2: whatever step failures occur, the promise of a queued append
resolves rather than rejects, and every enqueued operation still runs:
each submission index both starts and finishes — resolved — in the trace
of any queue run containing it. -/
theorem safeAppend_never_rejects (time : TimeEnv) (env : IoEnv) (now : String)
    (fs : FileSystem) (data : String) (p : LogPath) (maxSize : Nat) :
    (safeAppendBody time env now fs data p maxSize).rejection = none
    ∧ (∀ (fs0 : FileSystem) (jobs : List Job) (i : Nat), i < jobs.length →
        QEvent.start i ∈ (runQueue fs0 0 jobs).2
        ∧ QEvent.finish i none ∈ (runQueue fs0 0 jobs).2) := by
  refine ⟨safeAppendBody_resolves time env now fs data p maxSize,
    fun fs0 jobs i h => ?_⟩
  have hq := runQueue_runs_all jobs fs0 0 i h
  rw [Nat.zero_add] at hq
  exact hq

/-- A queued append whose directory creation fails. -/
def jobFailDir : Job :=
  { time := tEnvLate, env := { mkdirOk := false }, nowIso := "T", data := "a",
    path := path0, maxSize := 100 }

/-- A queued append whose primitives all succeed. -/
def jobOk : Job :=
  { time := tEnvLate, env := IoEnv.allOk, nowIso := "T", data := "b",
    path := path0, maxSize := 100 }

/-- Witness for C2: in a queue where the first append's directory creation
fails, the first operation resolves anyway and the second still starts and
finishes resolved. -/
theorem safeAppend_never_rejects_witness :
    (1 < ([jobFailDir, jobOk] : List Job).length)
    ∧ QEvent.start 1 ∈ (runQueue fsEmpty 0 [jobFailDir, jobOk]).2
    ∧ QEvent.finish 1 none ∈ (runQueue fsEmpty 0 [jobFailDir, jobOk]).2 :=
  ⟨by decide,
    (safeAppend_never_rejects tEnvLate { mkdirOk := false } "T" fsEmpty "a" path0
      100).2 fsEmpty [jobFailDir, jobOk] 1 (by decide)⟩

/-- C1: total order and mutual exclusion of the write queue.  Along the
trace of any queue run the operation tags are monotone, so every event of
an earlier-enqueued operation — directory ensure, rotation checks, append,
settlement — precedes every event of a later one: each body runs to
completion strictly before the next begins, earlier bytes are appended
first, and at most one append is ever in flight. -/
theorem writeQueue_total_order (fs0 : FileSystem) (jobs : List Job) :
    (((runQueue fs0 0 jobs).2.map QEvent.tag).Sorted (· ≤ ·))
    ∧ (∀ a b : Nat, a < (runQueue fs0 0 jobs).2.length →
        b < (runQueue fs0 0 jobs).2.length →
        ((runQueue fs0 0 jobs).2.getD a (QEvent.start 0)).tag <
          ((runQueue fs0 0 jobs).2.getD b (QEvent.start 0)).tag →
        a < b) := by
  refine ⟨runQueue_tags_sorted jobs fs0 0, fun a b ha hb hlt => ?_⟩
  rw [List.getD_eq_getElem _ _ ha, List.getD_eq_getElem _ _ hb] at hlt
  by_contra hba
  push_neg at hba
  rcases Nat.lt_or_ge b a with h2 | h2
  · have hs := runQueue_tags_sorted jobs fs0 0
    rw [List.Sorted, List.pairwise_iff_getElem] at hs
    have := hs b a (by simpa using hb) (by simpa using ha) h2
    rw [List.getElem_map, List.getElem_map] at this
    omega
  · have : a = b := by omega
    subst this
    omega

/-- Witness for C1: on a concrete two-operation run, the event at position
0 (tagged 0) precedes the event at position 7 (tagged 1). -/
theorem writeQueue_total_order_witness :
    ((runQueue fsEmpty 0 [jobFailDir, jobOk]).2.getD 0 (QEvent.start 0)).tag <
      ((runQueue fsEmpty 0 [jobFailDir, jobOk]).2.getD 7 (QEvent.start 0)).tag
    ∧ (0 : Nat) < 7 :=
  ⟨by decide,
    (writeQueue_total_order fsEmpty [jobFailDir, jobOk]).2 0 7
      (by decide) (by decide) (by decide)⟩

end LogSystem

